import Mathlib

/-!
Shallow embedding of the `AccessibleMap` component of the geomap app
(`src/components/AccessibleMap.tsx`).

JS numbers are modelled as exact rationals (`ℚ`): every numeric literal of
the source (`1.2`, `0.2`, `1.1`, …) denotes the exact decimal rational, and
the arithmetic of the handlers is exact. The React `useState` hooks and the
`panStart` ref are gathered into a `MapState` record, and every event
handler of the component becomes a pure state transformer. Environment
readings are explicit arguments: `Date.now()` is a `now : ℕ` argument, the
cursor position relative to the container is a `Point`, and the live SVG
viewBox (queried from the DOM in non-safe mode) is an `Option ViewBox`.
-/

/-- A 2D point with exact rational coordinates. -/
structure Point where
  x : ℚ
  y : ℚ
deriving DecidableEq, Repr

/-- `type Marker = { id: string; x: number; y: number; name: string }` (line 9). -/
structure Marker where
  id : String
  x : ℚ
  y : ℚ
  name : String
deriving DecidableEq, Repr

/-- The `viewBox.baseVal` of the live SVG element (non-safe marker branch). -/
structure ViewBox where
  x : ℚ
  y : ℚ
  w : ℚ
  h : ℚ
deriving DecidableEq, Repr

/-- The component state: the `useState` hooks and the `panStart` ref
(lines 29–36 of `AccessibleMap.tsx`). -/
structure MapState where
  zoom : ℚ
  pan : Point
  isPanning : Bool
  panStart : Option Point
  ariaMessage : String
  selectedRegion : Option String
  markers : List Marker
  safeMode : Bool
deriving DecidableEq, Repr

/-- Initial hook values: `zoom = 1`, `pan = {x:0,y:0}`, not panning, no drag
origin, empty live-region message, no selection, no markers, and
`safeMode = true` with no setter ever destructured (lines 29–36). -/
def initialState : MapState :=
  { zoom := 1, pan := ⟨0, 0⟩, isPanning := false, panStart := none,
    ariaMessage := "", selectedRegion := none, markers := [], safeMode := true }

/-- `handleZoomIn` (lines 39–45): `nz = Math.min(5, z * 1.2)` and the live
region is set to "Zoom avant". -/
def handleZoomIn (s : MapState) : MapState :=
  { s with zoom := min 5 (s.zoom * 1.2), ariaMessage := "Zoom avant" }

/-- `handleZoomOut` (lines 46–52): `nz = Math.max(0.2, z / 1.2)` and the live
region is set to "Zoom arrière". -/
def handleZoomOut (s : MapState) : MapState :=
  { s with zoom := max 0.2 (s.zoom / 1.2), ariaMessage := "Zoom arrière" }

/-- `onKeyDownContainer` (lines 55–76): `+`/`=` zoom in, `-`/`_` zoom out,
arrow keys translate the pan by `step = 20` in the matching direction. -/
def onKeyDownContainer (key : String) (s : MapState) : MapState :=
  let step : ℚ := 20
  if key = "+" ∨ key = "=" then handleZoomIn s
  else if key = "-" ∨ key = "_" then handleZoomOut s
  else if key = "ArrowLeft" then { s with pan := ⟨s.pan.x + step, s.pan.y⟩ }
  else if key = "ArrowRight" then { s with pan := ⟨s.pan.x - step, s.pan.y⟩ }
  else if key = "ArrowUp" then { s with pan := ⟨s.pan.x, s.pan.y + step⟩ }
  else if key = "ArrowDown" then { s with pan := ⟨s.pan.x, s.pan.y - step⟩ }
  else s

/-- `onMouseDown` (lines 79–82): unconditionally sets the panning flag and
records `panStart = client − pan`; `client` is `(e.clientX, e.clientY)`. -/
def onMouseDown (client : Point) (s : MapState) : MapState :=
  { s with isPanning := true,
           panStart := some ⟨client.x - s.pan.x, client.y - s.pan.y⟩ }

/-- `onMouseMove` (lines 83–86): if panning with a recorded origin, the pan
becomes `client − panStart`; otherwise the event is ignored. -/
def onMouseMove (client : Point) (s : MapState) : MapState :=
  if s.isPanning then
    match s.panStart with
    | none => s
    | some st => { s with pan := ⟨client.x - st.x, client.y - st.y⟩ }
  else s

/-- `onMouseUp` (lines 87–90): clears the panning flag and the drag origin. -/
def onMouseUp (s : MapState) : MapState :=
  { s with isPanning := false, panStart := none }

/-- `onMouseLeave` (lines 91–94): same effect as `onMouseUp`. -/
def onMouseLeave (s : MapState) : MapState :=
  { s with isPanning := false, panStart := none }

/-- `onWheel` (lines 97–116): cursor-anchored zoom. `cursor` stands for
`(e.clientX − rect.left, e.clientY − rect.top)` and the handler is modelled
with the container present (the `!container` early return aside). -/
def onWheel (cursor : Point) (deltaY : ℚ) (s : MapState) : MapState :=
  let scaleFactor : ℚ := if deltaY < 0 then 1.1 else 1 / 1.1
  let newZoom := min 5 (max 0.2 (s.zoom * scaleFactor))
  let k := newZoom / s.zoom
  { s with
    pan := ⟨cursor.x - k * (cursor.x - s.pan.x), cursor.y - k * (cursor.y - s.pan.y)⟩,
    zoom := newZoom,
    ariaMessage := if deltaY < 0 then "Zoom avant" else "Zoom arrière" }

/-- `handleSelect` (lines 119–122): records the selected region and announces
`"{name} sélectionné"`. -/
def handleSelect (name : String) (s : MapState) : MapState :=
  { s with selectedRegion := some name, ariaMessage := name ++ " sélectionné" }

/-- `addMarkerAtCenter` (lines 125–147). In safe mode the marker is placed at
the nominal viewBox center `(800/2, 400/2)`; otherwise at the center of the
live SVG `viewBox` when one is found. The id is `"m-" + Date.now()` and the
name `"Marqueur {count+1}"`. -/
def addMarkerAtCenter (now : ℕ) (svgViewBox : Option ViewBox) (s : MapState) : MapState :=
  if s.safeMode then
    let id := "m-" ++ toString now
    let name := "Marqueur " ++ toString (s.markers.length + 1)
    let x : ℚ := 800 / 2
    let y : ℚ := 400 / 2
    { s with markers := s.markers ++ [⟨id, x, y, name⟩],
             ariaMessage := name ++ " ajouté" }
  else
    match svgViewBox with
    | none => s
    | some vb =>
      let id := "m-" ++ toString now
      let name := "Marqueur " ++ toString (s.markers.length + 1)
      let x := vb.x + vb.w / 2
      let y := vb.y + vb.h / 2
      { s with markers := s.markers ++ [⟨id, x, y, name⟩],
               ariaMessage := name ++ " ajouté" }

/-! ### C1: cursor-anchored wheel zoom -/

/-- Arithmetic core of the anchor-zoom invariant. -/
lemma anchor_div_eq (z w a b : ℚ) (hz : z ≠ 0) (hw : w ≠ 0) :
    (a - b) / z = (a - (a - w / z * (a - b))) / w := by
  field_simp
  ring

/-- C1: for any zoom in `[0.2, 5]`, pan and cursor, `onWheel` computes
`newZoom = clamp(zoom * (deltaY<0 ? 1.1 : 1/1.1), 0.2, 5)` and, with
`k = newZoom/zoom`, the new pan is `cursor − k·(cursor − pan)` in both
components, so the world point under the cursor is preserved exactly:
`(c − p)/z = (c − p')/z'` in exact rational arithmetic. -/
theorem wheel_anchor_zoom (s : MapState) (c : Point) (dy : ℚ)
    (h1 : 0.2 ≤ s.zoom) (h2 : s.zoom ≤ 5) :
    (onWheel c dy s).zoom
        = min 5 (max 0.2 (s.zoom * (if dy < 0 then 1.1 else 1 / 1.1))) ∧
    (onWheel c dy s).pan.x
        = c.x - (onWheel c dy s).zoom / s.zoom * (c.x - s.pan.x) ∧
    (onWheel c dy s).pan.y
        = c.y - (onWheel c dy s).zoom / s.zoom * (c.y - s.pan.y) ∧
    (c.x - s.pan.x) / s.zoom
        = (c.x - (onWheel c dy s).pan.x) / (onWheel c dy s).zoom ∧
    (c.y - s.pan.y) / s.zoom
        = (c.y - (onWheel c dy s).pan.y) / (onWheel c dy s).zoom := by
  have hz : (0:ℚ) < s.zoom := lt_of_lt_of_le (by norm_num) h1
  have hnz : (0:ℚ) < (onWheel c dy s).zoom := by
    have h02 : (0:ℚ) < 0.2 := by norm_num
    have hle : (0.2:ℚ) ≤ max 0.2 (s.zoom * (if dy < 0 then 1.1 else 1 / 1.1)) :=
      le_max_left _ _
    exact lt_min (by norm_num) (lt_of_lt_of_le h02 hle)
  exact ⟨rfl, rfl, rfl,
    anchor_div_eq s.zoom (onWheel c dy s).zoom c.x s.pan.x hz.ne' hnz.ne',
    anchor_div_eq s.zoom (onWheel c dy s).zoom c.y s.pan.y hz.ne' hnz.ne'⟩

/-- Witness for `wheel_anchor_zoom` at the initial state with cursor
`(100, 50)` and a zoom-in wheel delta. -/
theorem wheel_anchor_zoom_witness :
    ((0.2:ℚ) ≤ initialState.zoom ∧ initialState.zoom ≤ 5) ∧
    (100 - initialState.pan.x) / initialState.zoom
      = (100 - (onWheel ⟨100, 50⟩ (-1) initialState).pan.x)
          / (onWheel ⟨100, 50⟩ (-1) initialState).zoom :=
  ⟨⟨by norm_num [initialState], by norm_num [initialState]⟩,
   (wheel_anchor_zoom initialState ⟨100, 50⟩ (-1) (by norm_num [initialState])
      (by norm_num [initialState])).2.2.2.1⟩

/-! ### C2: zoom clamping invariant and convergence to the bounds -/

/-- Zoom component of `handleZoomIn` iterated: it only depends on the zoom. -/
lemma handleZoomIn_iterate_zoom (n : ℕ) (s : MapState) :
    (handleZoomIn^[n] s).zoom = (fun z : ℚ => min 5 (z * 1.2))^[n] s.zoom := by
  induction n generalizing s with
  | zero => rfl
  | succ n ih =>
    rw [Function.iterate_succ_apply, Function.iterate_succ_apply]
    exact ih (handleZoomIn s)

/-- Zoom component of `handleZoomOut` iterated. -/
lemma handleZoomOut_iterate_zoom (n : ℕ) (s : MapState) :
    (handleZoomOut^[n] s).zoom = (fun z : ℚ => max 0.2 (z / 1.2))^[n] s.zoom := by
  induction n generalizing s with
  | zero => rfl
  | succ n ih =>
    rw [Function.iterate_succ_apply, Function.iterate_succ_apply]
    exact ih (handleZoomOut s)

/-- Closed form of the iterated zoom-in step below the cap. -/
lemma zoomInStep_iterate (n : ℕ) (z : ℚ) (hz : z ≤ 5) :
    (fun t : ℚ => min 5 (t * 1.2))^[n] z = min 5 (z * 1.2 ^ n) := by
  induction n with
  | zero => simp [min_eq_right hz]
  | succ n ih =>
    rw [Function.iterate_succ_apply', ih]
    show min 5 (min 5 (z * 1.2 ^ n) * 1.2) = min 5 (z * 1.2 ^ (n + 1))
    rw [min_mul_of_nonneg _ _ (by norm_num : (0:ℚ) ≤ 1.2), ← min_assoc]
    have h56 : min (5:ℚ) (5 * 1.2) = 5 := by norm_num
    rw [h56]
    congr 1
    ring

/-- Closed form of the iterated zoom-out step above the floor. -/
lemma zoomOutStep_iterate (n : ℕ) (z : ℚ) (hz : 0.2 ≤ z) :
    (fun t : ℚ => max 0.2 (t / 1.2))^[n] z = max 0.2 (z / 1.2 ^ n) := by
  induction n with
  | zero => simp [max_eq_right hz]
  | succ n ih =>
    rw [Function.iterate_succ_apply', ih]
    show max 0.2 (max 0.2 (z / 1.2 ^ n) / 1.2) = max 0.2 (z / 1.2 ^ (n + 1))
    rw [← max_div_div_right (by norm_num : (0:ℚ) ≤ 1.2), ← max_assoc]
    have h02 : max (0.2:ℚ) (0.2 / 1.2) = 0.2 := by norm_num
    rw [h02]
    congr 1
    rw [div_div, ← pow_succ]

/-- After 120 steps the factor `1.2^n` dominates the whole zoom range. -/
lemma pow_twelve_tenths_ge (n : ℕ) (hn : 120 ≤ n) : (25:ℚ) ≤ 1.2 ^ n := by
  have hcast : (120:ℚ) ≤ (n : ℚ) := by exact_mod_cast hn
  calc (25:ℚ) = 1 + 120 * 0.2 := by norm_num
    _ ≤ 1 + n * 0.2 := by nlinarith
    _ ≤ (1 + 0.2) ^ n := one_add_mul_le_pow (by norm_num) n
    _ = 1.2 ^ n := by norm_num

/-- C2: every viewport zoom operation keeps `zoom ∈ [0.2, 5]` (the wheel
clamps from any starting zoom, so out-of-range requests are silently
clamped), and from any in-range zoom, 120 or more repeated `zoomIn`
(respectively `zoomOut`) applications give exactly zoom 5 (respectively
exactly 0.2) and stay there. -/
theorem zoom_range_invariant (s : MapState) (h1 : 0.2 ≤ s.zoom) (h2 : s.zoom ≤ 5) :
    (0.2 ≤ (handleZoomIn s).zoom ∧ (handleZoomIn s).zoom ≤ 5) ∧
    (0.2 ≤ (handleZoomOut s).zoom ∧ (handleZoomOut s).zoom ≤ 5) ∧
    (∀ (t : MapState) (c : Point) (dy : ℚ),
        0.2 ≤ (onWheel c dy t).zoom ∧ (onWheel c dy t).zoom ≤ 5) ∧
    (∀ n : ℕ, 120 ≤ n → (handleZoomIn^[n] s).zoom = 5) ∧
    (∀ n : ℕ, 120 ≤ n → (handleZoomOut^[n] s).zoom = 0.2) := by
  refine ⟨⟨?_, ?_⟩, ⟨?_, ?_⟩, ?_, ?_, ?_⟩
  · exact le_min (by norm_num) (by nlinarith)
  · exact min_le_left _ _
  · exact le_max_left _ _
  · refine max_le (by norm_num) ?_
    rw [div_le_iff (by norm_num : (0:ℚ) < 1.2)]
    linarith
  · intro t c dy
    constructor
    · exact le_min (by norm_num) (le_max_left _ _)
    · exact min_le_left _ _
  · intro n hn
    rw [handleZoomIn_iterate_zoom, zoomInStep_iterate n s.zoom h2]
    have hpow := pow_twelve_tenths_ge n hn
    have h5 : (5:ℚ) ≤ s.zoom * 1.2 ^ n := by nlinarith
    exact min_eq_left h5
  · intro n hn
    rw [handleZoomOut_iterate_zoom, zoomOutStep_iterate n s.zoom h1]
    have hpow := pow_twelve_tenths_ge n hn
    have hppos : (0:ℚ) < 1.2 ^ n := by positivity
    have hle : s.zoom / 1.2 ^ n ≤ 0.2 := by
      rw [div_le_iff hppos]
      nlinarith
    exact max_eq_left hle

/-- Witness for `zoom_range_invariant` at the initial state, with the
iteration bounds instantiated at 120 steps. -/
theorem zoom_range_invariant_witness :
    ((0.2:ℚ) ≤ initialState.zoom ∧ initialState.zoom ≤ 5) ∧
    (handleZoomIn^[120] initialState).zoom = 5 ∧
    (handleZoomOut^[120] initialState).zoom = 0.2 := by
  have h := zoom_range_invariant initialState (by norm_num [initialState])
    (by norm_num [initialState])
  exact ⟨⟨by norm_num [initialState], by norm_num [initialState]⟩,
    h.2.2.2.1 120 le_rfl, h.2.2.2.2 120 le_rfl⟩

/-! ### C6: drag state machine -/

/-- C6 counterexample: `onMouseDown` has no guard on the panning flag. A
second mouse-down received while a drag is active overwrites the drag-start
origin, and the subsequent pan tracking follows the new origin, so it is not
a no-op. -/
theorem mousedown_during_drag_not_noop :
    (onMouseDown ⟨10, 10⟩ initialState).isPanning = true ∧
    (onMouseDown ⟨50, 70⟩ (onMouseDown ⟨10, 10⟩ initialState)).panStart
        ≠ (onMouseDown ⟨10, 10⟩ initialState).panStart ∧
    (onMouseMove ⟨60, 80⟩ (onMouseDown ⟨50, 70⟩ (onMouseDown ⟨10, 10⟩ initialState))).pan
        ≠ (onMouseMove ⟨60, 80⟩ (onMouseDown ⟨10, 10⟩ initialState)).pan := by
  refine ⟨rfl, ?_, ?_⟩
  · norm_num [onMouseDown, initialState, Point.mk.injEq]
  · norm_num [onMouseMove, onMouseDown, initialState, Point.mk.injEq]

/-- C6 (amended): the drag flag transitions Idle → Dragging on mouse-down and
Dragging → Idle on mouse-up / mouse-leave, and mouse-move never changes the
flag or the origin; but a mouse-down received during an active drag is not a
guarded no-op: it unconditionally re-anchors the drag, overwriting the
drag-start origin with `client − pan`. -/
theorem drag_state_machine (s : MapState) (c : Point) :
    ((onMouseDown c s).isPanning = true ∧
      (onMouseDown c s).panStart = some ⟨c.x - s.pan.x, c.y - s.pan.y⟩) ∧
    ((onMouseUp s).isPanning = false ∧ (onMouseUp s).panStart = none) ∧
    ((onMouseLeave s).isPanning = false ∧ (onMouseLeave s).panStart = none) ∧
    ((onMouseMove c s).isPanning = s.isPanning ∧
      (onMouseMove c s).panStart = s.panStart) := by
  refine ⟨⟨rfl, rfl⟩, ⟨rfl, rfl⟩, ⟨rfl, rfl⟩, ?_⟩
  unfold onMouseMove
  split
  · rcases hps : s.panStart with _ | st <;> simp [hps]
  · exact ⟨rfl, rfl⟩

/-! ### C8: which interactions update the announcement slot -/

/-- Evaluation of the arrow-left branch of the key handler. -/
lemma onKeyDownContainer_arrowLeft (s : MapState) :
    onKeyDownContainer "ArrowLeft" s = { s with pan := ⟨s.pan.x + 20, s.pan.y⟩ } := by
  simp only [onKeyDownContainer]
  rw [if_neg (by decide), if_neg (by decide), if_pos (by decide)]

/-- Evaluation of the arrow-right branch of the key handler. -/
lemma onKeyDownContainer_arrowRight (s : MapState) :
    onKeyDownContainer "ArrowRight" s = { s with pan := ⟨s.pan.x - 20, s.pan.y⟩ } := by
  simp only [onKeyDownContainer]
  rw [if_neg (by decide), if_neg (by decide), if_neg (by decide), if_pos (by decide)]

/-- Evaluation of the arrow-up branch of the key handler. -/
lemma onKeyDownContainer_arrowUp (s : MapState) :
    onKeyDownContainer "ArrowUp" s = { s with pan := ⟨s.pan.x, s.pan.y + 20⟩ } := by
  simp only [onKeyDownContainer]
  rw [if_neg (by decide), if_neg (by decide), if_neg (by decide), if_neg (by decide),
    if_pos (by decide)]

/-- Evaluation of the arrow-down branch of the key handler. -/
lemma onKeyDownContainer_arrowDown (s : MapState) :
    onKeyDownContainer "ArrowDown" s = { s with pan := ⟨s.pan.x, s.pan.y - 20⟩ } := by
  simp only [onKeyDownContainer]
  rw [if_neg (by decide), if_neg (by decide), if_neg (by decide), if_neg (by decide),
    if_neg (by decide), if_pos (by decide)]

/-- C8 counterexample: the keyboard arrow pan is a state-changing interaction
(it moves the pan) but does not touch the live-region message, which stays
empty in the initial state. -/
theorem pan_does_not_announce :
    (onKeyDownContainer "ArrowLeft" initialState).pan ≠ initialState.pan ∧
    (onKeyDownContainer "ArrowLeft" initialState).ariaMessage = "" := by
  rw [onKeyDownContainer_arrowLeft]
  constructor
  · norm_num [initialState, Point.mk.injEq]
  · rfl

/-- Helper: appending a non-empty string never yields the empty string. -/
lemma append_ne_empty (a b : String) (hb : b ≠ "") : a ++ b ≠ "" := by
  intro h
  apply hb
  have hd : a.data ++ b.data = [] := by
    have h2 := congrArg String.data h
    simpa using h2
  exact String.ext (List.append_eq_nil.mp hd).2

/-- C8 (amended): zoom operations, wheel zooms, region selections and marker
additions each overwrite the announcement slot with a non-empty message, but
pan operations (keyboard arrows and mouse-move drag) change the pan without
updating the announcement. -/
theorem interactions_announce (s : MapState) (name : String) (c : Point) (dy : ℚ)
    (now : ℕ) (vb : Option ViewBox) :
    (handleZoomIn s).ariaMessage = "Zoom avant" ∧
    (handleZoomOut s).ariaMessage = "Zoom arrière" ∧
    (onWheel c dy s).ariaMessage
        = (if dy < 0 then "Zoom avant" else "Zoom arrière") ∧
    (onWheel c dy s).ariaMessage ≠ "" ∧
    (handleSelect name s).ariaMessage = name ++ " sélectionné" ∧
    (handleSelect name s).ariaMessage ≠ "" ∧
    (s.safeMode = true →
      (addMarkerAtCenter now vb s).ariaMessage
          = ("Marqueur " ++ toString (s.markers.length + 1)) ++ " ajouté" ∧
      (addMarkerAtCenter now vb s).ariaMessage ≠ "") ∧
    ((onKeyDownContainer "ArrowLeft" s).ariaMessage = s.ariaMessage ∧
      (onKeyDownContainer "ArrowRight" s).ariaMessage = s.ariaMessage ∧
      (onKeyDownContainer "ArrowUp" s).ariaMessage = s.ariaMessage ∧
      (onKeyDownContainer "ArrowDown" s).ariaMessage = s.ariaMessage) ∧
    (onMouseMove c s).ariaMessage = s.ariaMessage := by
  refine ⟨rfl, rfl, rfl, ?_, rfl, ?_, ?_, ?_, ?_⟩
  · show (if dy < 0 then "Zoom avant" else "Zoom arrière") ≠ ""
    split <;> decide
  · exact append_ne_empty name " sélectionné" (by decide)
  · intro hsafe
    constructor
    · simp [addMarkerAtCenter, hsafe]
    · have heq : (addMarkerAtCenter now vb s).ariaMessage
          = ("Marqueur " ++ toString (s.markers.length + 1)) ++ " ajouté" := by
        simp [addMarkerAtCenter, hsafe]
      rw [heq]
      exact append_ne_empty _ " ajouté" (by decide)
  · exact ⟨by rw [onKeyDownContainer_arrowLeft], by rw [onKeyDownContainer_arrowRight],
      by rw [onKeyDownContainer_arrowUp], by rw [onKeyDownContainer_arrowDown]⟩
  · unfold onMouseMove
    split
    · rcases hps : s.panStart with _ | st <;> simp [hps]
    · rfl

/-- Witness for `interactions_announce` at the initial state, with the
marker-addition hypothesis discharged there. -/
theorem interactions_announce_witness :
    (handleZoomIn initialState).ariaMessage = "Zoom avant" ∧
    initialState.safeMode = true ∧
    (addMarkerAtCenter 0 none initialState).ariaMessage ≠ "" := by
  have h := interactions_announce initialState "France" ⟨0, 0⟩ (-1) 0 none
  exact ⟨h.1, rfl, (h.2.2.2.2.2.2.1 rfl).2⟩

/-! ### C3, C10: the marker store -/

/-- Decimal printing related to `Nat.digits`: with enough fuel,
`Nat.toDigitsCore` emits the reversed decimal digit characters. -/
lemma toDigitsCore_eq_digits : ∀ (fuel n : ℕ) (ds : List Char), n < fuel →
    Nat.toDigitsCore 10 fuel n ds
      = (if n = 0 then ['0']
         else ((Nat.digits 10 n).map Nat.digitChar).reverse) ++ ds := by
  intro fuel
  induction fuel with
  | zero => intro n ds h; omega
  | succ fuel ih =>
    intro n ds h
    by_cases hn : n = 0
    · subst hn
      simp [Nat.toDigitsCore, Nat.digitChar]
    · by_cases hq : n / 10 = 0
      · have hlt : n < 10 := by omega
        have hdig : Nat.digits 10 n = [n] := by
          rw [Nat.digits_def' (by norm_num : 1 < 10) (Nat.pos_of_ne_zero hn), hq]
          simp [Nat.mod_eq_of_lt hlt]
        simp [Nat.toDigitsCore, hq, hdig, hn, Nat.mod_eq_of_lt hlt]
      · have hfuel : n / 10 < fuel := by
          have h1 : n / 10 < n := Nat.div_lt_self (Nat.pos_of_ne_zero hn) (by norm_num)
          omega
        have hrec : Nat.toDigitsCore 10 (fuel + 1) n ds
            = Nat.toDigitsCore 10 fuel (n / 10) (Nat.digitChar (n % 10) :: ds) := by
          simp [Nat.toDigitsCore, hq]
        rw [hrec, ih (n / 10) _ hfuel, if_neg hq, if_neg hn,
          Nat.digits_def' (by norm_num : 1 < 10) (Nat.pos_of_ne_zero hn)]
        simp [List.append_assoc]

/-- `Nat.repr` through `Nat.digits`. -/
lemma repr_eq_digits (n : ℕ) :
    Nat.repr n
      = (if n = 0 then ['0']
         else ((Nat.digits 10 n).map Nat.digitChar).reverse).asString := by
  show (Nat.toDigits 10 n).asString = _
  rw [Nat.toDigits, toDigitsCore_eq_digits (n + 1) n [] (Nat.lt_succ_self n),
    List.append_nil]

/-- `Nat.digitChar` is injective on decimal digits. -/
lemma digitChar_injOn : ∀ a, a < 10 → ∀ b, b < 10 →
    Nat.digitChar a = Nat.digitChar b → a = b := by decide

/-- Mapping `Nat.digitChar` over decimal digit lists is injective. -/
lemma map_digitChar_inj : ∀ (l1 l2 : List ℕ), (∀ d ∈ l1, d < 10) → (∀ d ∈ l2, d < 10) →
    l1.map Nat.digitChar = l2.map Nat.digitChar → l1 = l2 := by
  intro l1
  induction l1 with
  | nil =>
    intro l2 _ _ h
    cases l2 with
    | nil => rfl
    | cons b t => simp at h
  | cons a t ih =>
    intro l2 h1 h2 h
    cases l2 with
    | nil => simp at h
    | cons b t2 =>
      simp only [List.map_cons, List.cons.injEq] at h
      have ha : a = b := digitChar_injOn a (h1 a (by simp)) b (h2 b (by simp)) h.1
      have ht : t = t2 :=
        ih t2 (fun d hd => h1 d (by simp [hd])) (fun d hd => h2 d (by simp [hd])) h.2
      rw [ha, ht]

/-- The decimal printer `Nat.repr` is injective. -/
lemma nat_repr_injective : Function.Injective Nat.repr := by
  intro m n h
  rw [repr_eq_digits, repr_eq_digits] at h
  have hlist : (if m = 0 then ['0'] else ((Nat.digits 10 m).map Nat.digitChar).reverse)
      = (if n = 0 then ['0'] else ((Nat.digits 10 n).map Nat.digitChar).reverse) :=
    congrArg String.data h
  by_cases hm : m = 0
  · by_cases hn : n = 0
    · rw [hm, hn]
    · exfalso
      rw [if_pos hm, if_neg hn] at hlist
      have h1 : (Nat.digits 10 n).map Nat.digitChar = ['0'] := by
        have h2 := congrArg List.reverse hlist
        simpa using h2.symm
      have h2 : Nat.digits 10 n = [0] :=
        map_digitChar_inj _ [0] (fun d hd => Nat.digits_lt_base (by norm_num) hd)
          (by simp) (h1.trans (by decide))
      have h4 := Nat.ofDigits_digits 10 n
      rw [h2] at h4
      simp [Nat.ofDigits] at h4
      exact hn h4.symm
  · by_cases hn : n = 0
    · exfalso
      rw [if_neg hm, if_pos hn] at hlist
      have h1 : (Nat.digits 10 m).map Nat.digitChar = ['0'] := by
        have h2 := congrArg List.reverse hlist
        simpa using h2
      have h2 : Nat.digits 10 m = [0] :=
        map_digitChar_inj _ [0] (fun d hd => Nat.digits_lt_base (by norm_num) hd)
          (by simp) (h1.trans (by decide))
      have h4 := Nat.ofDigits_digits 10 m
      rw [h2] at h4
      simp [Nat.ofDigits] at h4
      exact hm h4.symm
    · rw [if_neg hm, if_neg hn] at hlist
      have h1 : (Nat.digits 10 m).map Nat.digitChar
          = (Nat.digits 10 n).map Nat.digitChar := by
        have h2 := congrArg List.reverse hlist
        simpa using h2
      have h2 : Nat.digits 10 m = Nat.digits 10 n :=
        map_digitChar_inj _ _ (fun d hd => Nat.digits_lt_base (by norm_num) hd)
          (fun d hd => Nat.digits_lt_base (by norm_num) hd) h1
      have h3 := Nat.ofDigits_digits 10 m
      rw [h2, Nat.ofDigits_digits] at h3
      exact h3.symm

/-- The marker id builder `t ↦ "m-" + String(t)` is injective in the
timestamp. -/
lemma markerId_injective : Function.Injective (fun t : ℕ => "m-" ++ toString t) := by
  intro a b h
  have hd : ("m-" ++ toString a).data = ("m-" ++ toString b).data :=
    congrArg String.data h
  rw [String.data_append, String.data_append] at hd
  exact nat_repr_injective (String.ext (List.append_cancel_left hd))

/-- Repeated clicks of the add-marker button; the `Date.now()` reading of each
call is listed in `times` (safe mode never reads the viewBox). -/
def addMarkerRun (times : List ℕ) (s : MapState) : MapState :=
  times.foldl (fun acc t => addMarkerAtCenter t none acc) s

/-- The markers appended by a run of add-marker calls on a store that already
holds `k` markers. -/
def expectedMarkers (k : ℕ) : List ℕ → List Marker
  | [] => []
  | t :: ts =>
    ⟨"m-" ++ toString t, 800 / 2, 400 / 2, "Marqueur " ++ toString (k + 1)⟩
      :: expectedMarkers (k + 1) ts

/-- Evaluation of one safe-mode add-marker call. -/
lemma addMarkerAtCenter_safe (now : ℕ) (vb : Option ViewBox) (s : MapState)
    (h : s.safeMode = true) :
    addMarkerAtCenter now vb s
      = { s with
          markers := s.markers
            ++ [⟨"m-" ++ toString now, 800 / 2, 400 / 2,
                 "Marqueur " ++ toString (s.markers.length + 1)⟩],
          ariaMessage := ("Marqueur " ++ toString (s.markers.length + 1)) ++ " ajouté" } := by
  simp [addMarkerAtCenter, h]

/-- A safe-mode run appends exactly the expected marker sequence. -/
lemma addMarkerRun_markers : ∀ (times : List ℕ) (s : MapState), s.safeMode = true →
    (addMarkerRun times s).markers = s.markers ++ expectedMarkers s.markers.length times
      ∧ (addMarkerRun times s).safeMode = true := by
  intro times
  induction times with
  | nil => intro s h; exact ⟨(List.append_nil _).symm, h⟩
  | cons t ts ih =>
    intro s h
    have hstep := addMarkerAtCenter_safe t none s h
    have hrun : addMarkerRun (t :: ts) s = addMarkerRun ts (addMarkerAtCenter t none s) :=
      rfl
    have hsafe1 : (addMarkerAtCenter t none s).safeMode = true := by rw [hstep]; exact h
    obtain ⟨hm, hs⟩ := ih (addMarkerAtCenter t none s) hsafe1
    rw [hrun]
    refine ⟨?_, hs⟩
    rw [hm, hstep]
    simp [expectedMarkers, List.length_append, List.append_assoc]

/-- The ids of an expected marker sequence. -/
lemma expectedMarkers_map_id : ∀ (times : List ℕ) (k : ℕ),
    (expectedMarkers k times).map Marker.id
      = times.map (fun t => "m-" ++ toString t) := by
  intro times
  induction times with
  | nil => intro k; rfl
  | cons t ts ih => intro k; simp [expectedMarkers, ih (k + 1)]

/-- The names of an expected marker sequence are sequential. -/
lemma expectedMarkers_map_name : ∀ (times : List ℕ) (k : ℕ),
    (expectedMarkers k times).map Marker.name
      = (List.range times.length).map (fun i => "Marqueur " ++ toString (k + i + 1)) := by
  intro times
  induction times with
  | nil => intro k; rfl
  | cons t ts ih =>
    intro k
    rw [List.length_cons, List.range_succ_eq_map]
    simp only [expectedMarkers, List.map_cons, List.map_map]
    refine congrArg₂ List.cons (by norm_num) ?_
    rw [ih (k + 1)]
    apply List.map_congr_left
    intro i _
    simp only [Function.comp_apply]
    have harith : k + 1 + i + 1 = k + (i + 1) + 1 := by omega
    rw [harith]

/-- The length of an expected marker sequence. -/
lemma expectedMarkers_length : ∀ (times : List ℕ) (k : ℕ),
    (expectedMarkers k times).length = times.length := by
  intro times
  induction times with
  | nil => intro k; rfl
  | cons t ts ih => intro k; simp [expectedMarkers, ih (k + 1)]

/-- C3 counterexample: two add-marker calls within the same millisecond
(`Date.now()` returning 0 twice) produce markers with the identical id
"m-0", so the markers of a run do not always carry pairwise distinct ids. -/
theorem same_timestamp_duplicate_ids :
    ((addMarkerRun [0, 0] initialState).markers.map Marker.id) = ["m-0", "m-0"] ∧
    ¬ ((addMarkerRun [0, 0] initialState).markers.map Marker.id).Nodup := by
  decide

/-- C3 (amended): N add-marker calls starting from the empty store always
succeed and yield N markers in insertion order named "Marqueur 1" …
"Marqueur N", each with id `"m-" + Date.now()`; the ids are pairwise distinct
whenever the per-call timestamps are pairwise distinct. -/
theorem markers_sequential (times : List ℕ) :
    (addMarkerRun times initialState).markers.length = times.length ∧
    (addMarkerRun times initialState).markers.map Marker.name
      = (List.range times.length).map (fun i => "Marqueur " ++ toString (i + 1)) ∧
    (addMarkerRun times initialState).markers.map Marker.id
      = times.map (fun t => "m-" ++ toString t) ∧
    (times.Nodup →
      ((addMarkerRun times initialState).markers.map Marker.id).Nodup) := by
  obtain ⟨hm, -⟩ := addMarkerRun_markers times initialState rfl
  have hm0 : (addMarkerRun times initialState).markers = expectedMarkers 0 times := by
    simpa [initialState] using hm
  refine ⟨?_, ?_, ?_, ?_⟩
  · rw [hm0, expectedMarkers_length]
  · rw [hm0, expectedMarkers_map_name]
    apply List.map_congr_left
    intro i _
    norm_num
  · rw [hm0, expectedMarkers_map_id]
  · intro hnd
    rw [hm0, expectedMarkers_map_id]
    exact hnd.map markerId_injective

/-- Witness for `markers_sequential` on three distinct timestamps. -/
theorem markers_sequential_witness :
    (addMarkerRun [5, 17, 42] initialState).markers.map Marker.name
      = ["Marqueur 1", "Marqueur 2", "Marqueur 3"] ∧
    ((addMarkerRun [5, 17, 42] initialState).markers.map Marker.id).Nodup := by
  have h := markers_sequential [5, 17, 42]
  refine ⟨?_, h.2.2.2 (by decide)⟩
  rw [h.2.1]
  decide

/-- C10: in safe mode `addMarkerAtCenter` appends its marker at the fixed
intrinsic coordinates `(800/2, 400/2) = (400, 200)` — the equation does not
involve the pan or zoom, so the placement ignores the on-screen view. -/
theorem safe_marker_fixed_center (now : ℕ) (vb : Option ViewBox) (s : MapState)
    (h : s.safeMode = true) :
    (addMarkerAtCenter now vb s).markers
      = s.markers ++ [⟨"m-" ++ toString now, 800 / 2, 400 / 2,
          "Marqueur " ++ toString (s.markers.length + 1)⟩] ∧
    ((800 : ℚ) / 2 = 400 ∧ (400 : ℚ) / 2 = 200) :=
  ⟨by rw [addMarkerAtCenter_safe now vb s h], by norm_num, by norm_num⟩

/-- Witness for `safe_marker_fixed_center` at the initial state. -/
theorem safe_marker_fixed_center_witness :
    initialState.safeMode = true ∧
    (addMarkerAtCenter 7 none initialState).markers
      = [⟨"m-7", 800 / 2, 400 / 2, "Marqueur 1"⟩] := by
  refine ⟨rfl, ?_⟩
  rw [(safe_marker_fixed_center 7 none initialState rfl).1]
  rfl

/-! ### C5, C7: the export pipeline -/

/-- JS `Math.round`: round half toward positive infinity. -/
def jsRound (q : ℚ) : ℤ := ⌊q + 1 / 2⌋

/-- Observable effect of the safe-mode branch of `addCurrentViewToDesign`
(lines 150–179): the off-screen canvas dimensions and the transform under
which the artwork is drawn. -/
structure SafeExportSurface where
  canvasWidth : ℤ
  canvasHeight : ℤ
  translate : Point
  scale : ℚ
  drawWidth : ℚ
  drawHeight : ℚ
deriving DecidableEq, Repr

/-- Safe-mode export: `width`/`height` come from the container's bounding
rect, defaulting to 800×500 when the container is absent (line 152); the
canvas is allocated at `Math.round(width) × Math.round(height)`
(lines 162–163) and the artwork is drawn at its nominal 800×400 intrinsic
size through `translate(pan); scale(zoom)` (lines 168–170). -/
def addCurrentViewToDesignSafe (rect : Option (ℚ × ℚ)) (s : MapState) :
    SafeExportSurface :=
  let wh := rect.getD (800, 500)
  { canvasWidth := jsRound wh.1, canvasHeight := jsRound wh.2,
    translate := s.pan, scale := s.zoom, drawWidth := 800, drawHeight := 400 }

/-- C5: the raster surface is allocated at the displayed viewport dimensions
(rounded), for every viewport size and every zoom/pan state — the dimension
equations do not involve the state — and an 800×300 viewport yields exactly
an 800×300 canvas, not the intrinsic 800×400. -/
theorem export_canvas_matches_viewport (w h : ℚ) (s : MapState) :
    (addCurrentViewToDesignSafe (some (w, h)) s).canvasWidth = jsRound w ∧
    (addCurrentViewToDesignSafe (some (w, h)) s).canvasHeight = jsRound h ∧
    (addCurrentViewToDesignSafe (some (800, 300)) s).canvasWidth = 800 ∧
    (addCurrentViewToDesignSafe (some (800, 300)) s).canvasHeight = 300 ∧
    (addCurrentViewToDesignSafe (some (800, 300)) s).canvasHeight ≠ 400 := by
  have hw : jsRound 800 = 800 := by
    rw [jsRound]
    norm_num
  have hh : jsRound 300 = 300 := by
    rw [jsRound]
    norm_num
  refine ⟨rfl, rfl, hw, hh, ?_⟩
  show jsRound 300 ≠ 400
  rw [hh]
  decide

/-- Outcome trace of the vector-serialization export branch (lines 180–211):
whether the temporary object-URL was created and revoked, and the promise
outcome. The flags state whether an `<svg>` element is present, whether the
image element decodes the serialized SVG url, whether a 2d canvas context is
available, and whether canvas encoding succeeds. -/
structure VectorExportTrace where
  urlCreated : Bool
  urlRevoked : Bool
  outcome : Option (Except String String)
deriving Repr

/-- The vector (non-safe) branch of `addCurrentViewToDesign`: without an SVG
element the function returns early (line 183); otherwise an object-URL is
created (line 189) and it is revoked only in the `finally` of the
`img.onload` try-block (lines 192–207) — the `img.onerror` rejection
(line 208) bypasses that block. -/
def addCurrentViewToDesignVector (svgPresent imgLoads ctxOk encodeOk : Bool) :
    VectorExportTrace :=
  if !svgPresent then
    { urlCreated := false, urlRevoked := false, outcome := none }
  else if !imgLoads then
    { urlCreated := true, urlRevoked := false,
      outcome := some (Except.error "image decode error") }
  else if !ctxOk then
    { urlCreated := true, urlRevoked := true,
      outcome := some (Except.error "Canvas not supported") }
  else if !encodeOk then
    { urlCreated := true, urlRevoked := true,
      outcome := some (Except.error "encode failure") }
  else
    { urlCreated := true, urlRevoked := true,
      outcome := some (Except.ok "png data url") }

/-- C7: on the image-decode failure path the vector export rejects while the
object-URL it created is never revoked — the `finally` only guards the
`onload` try-block, not the `onerror` rejection — so the URL leaks there;
every `onload` exit (context failure, encode failure, success) does revoke
it. -/
theorem objectUrl_leak_on_decode_error :
    ((addCurrentViewToDesignVector true false true true).urlCreated = true ∧
      (addCurrentViewToDesignVector true false true true).urlRevoked = false ∧
      (addCurrentViewToDesignVector true false true true).outcome
        = some (Except.error "image decode error")) ∧
    (∀ ctxOk encodeOk : Bool,
      (addCurrentViewToDesignVector true true ctxOk encodeOk).urlRevoked = true) := by
  refine ⟨⟨rfl, rfl, rfl⟩, ?_⟩
  intro ctxOk encodeOk
  cases ctxOk <;> cases encodeOk <;> rfl

/-! ### C4: the tree augmenter -/

/-- A node of the rendered SVG scene graph: an element with a tag, string
attributes and children, or a text node. Event handlers and non-string props
are outside the model; the numeric attributes the augmenter writes are
rendered through `Rat` printing. -/
inductive VNode where
  | element (tag : String) (attrs : List (String × String)) (children : List VNode)
  | text (str : String)
deriving Repr

/-- Attribute lookup, as in `pathAttrs["data-name"]` / `pathAttrs.id`. -/
def getAttr (attrs : List (String × String)) (key : String) : Option String :=
  (attrs.find? (fun p => p.1 = key)).map Prod.snd

/-- JS `a || b` on an optional string: an absent or empty (falsy) `a` falls
through to `b`. -/
def jsOrElse (a : Option String) (b : String) : String :=
  match a with
  | none => b
  | some v => if v = "" then b else v

/-- Display-name resolution of the path branch (lines 290–291):
`dataName || id || "Région"` with JS falsy semantics. -/
def resolveName (dataName idAttr : Option String) : String :=
  jsOrElse dataName (jsOrElse idAttr "Région")

/-- Rendering of one marker as a `<circle>` carrying an accessible title
(lines 256–272). -/
def markerNode (m : Marker) : VNode :=
  VNode.element "circle"
    [("cx", toString m.x), ("cy", toString m.y), ("r", "6"),
     ("fill", "#E53935"), ("stroke", "#fff"), ("strokeWidth", "2")]
    [VNode.element "title" [] [VNode.text ("Point " ++ m.name)]]

mutual

/-- The recursive augmentation pass (lines 233–316): children are augmented
first; the root `<svg>`'s children are wrapped in a `<g id="viewport">`
carrying the pan/zoom transform followed by the marker layer; every `<path>`
gets a `<title>` with its resolved display name as new first child. -/
def augment (pan : Point) (zoom : ℚ) (markers : List Marker) : VNode → VNode
  | VNode.text str => VNode.text str
  | VNode.element tag attrs children =>
    let children1 := augmentList pan zoom markers children
    let children2 :=
      if tag = "svg" then
        [VNode.element "g"
          [("id", "viewport"),
           ("transform", "translate(" ++ toString pan.x ++ " " ++ toString pan.y
              ++ ") scale(" ++ toString zoom ++ ")")]
          (children1
            ++ [VNode.element "g" [("id", "markers")] (markers.map markerNode)])]
      else children1
    if tag = "path" then
      VNode.element tag attrs
        (VNode.element "title" []
            [VNode.text (resolveName (getAttr attrs "data-name") (getAttr attrs "id"))]
          :: children2)
    else VNode.element tag attrs children2

/-- Child-list recursion of the augmentation pass (`React.Children.map`). -/
def augmentList (pan : Point) (zoom : ℚ) (markers : List Marker) :
    List VNode → List VNode
  | [] => []
  | c :: cs => augment pan zoom markers c :: augmentList pan zoom markers cs

end

/-- C4 counterexample: a path node carrying both a `data-name` attribute
(with the empty string as value) and an identifier resolves to the
identifier, not to the `data-name` value: JS `||` treats the empty string
as falsy, so the augmented title reads "France", not "". -/
theorem empty_dataName_resolves_to_id :
    getAttr [("data-name", ""), ("id", "France")] "data-name" = some "" ∧
    resolveName (getAttr [("data-name", ""), ("id", "France")] "data-name")
        (getAttr [("data-name", ""), ("id", "France")] "id") = "France" ∧
    augment ⟨0, 0⟩ 1 []
        (VNode.element "path" [("data-name", ""), ("id", "France")] [])
      = VNode.element "path" [("data-name", ""), ("id", "France")]
          [VNode.element "title" [] [VNode.text "France"]] ∧
    "France" ≠ ("" : String) := by
  refine ⟨rfl, rfl, ?_, by decide⟩
  rw [augment]
  simp [augmentList, resolveName, getAttr, jsOrElse]

/-- C4 (amended): the path display name follows the precedence non-empty
`data-name` > non-empty `id` > localized fallback "Région" (JS `||`
semantics: a present-but-empty attribute falls through), and the resolved
name is injected as a `<title>` that becomes the path node's first child. -/
theorem path_name_resolution (pan : Point) (zoom : ℚ) (markers : List Marker)
    (attrs : List (String × String)) (children : List VNode) :
    (∀ d, getAttr attrs "data-name" = some d → d ≠ "" →
      resolveName (getAttr attrs "data-name") (getAttr attrs "id") = d) ∧
    ((getAttr attrs "data-name" = none ∨ getAttr attrs "data-name" = some "") →
      ∀ i, getAttr attrs "id" = some i → i ≠ "" →
        resolveName (getAttr attrs "data-name") (getAttr attrs "id") = i) ∧
    (getAttr attrs "data-name" = none → getAttr attrs "id" = none →
      resolveName (getAttr attrs "data-name") (getAttr attrs "id") = "Région") ∧
    augment pan zoom markers (VNode.element "path" attrs children)
      = VNode.element "path" attrs
          (VNode.element "title" []
              [VNode.text (resolveName (getAttr attrs "data-name") (getAttr attrs "id"))]
            :: augmentList pan zoom markers children) := by
  refine ⟨?_, ?_, ?_, ?_⟩
  · intro d hd hne
    simp [resolveName, jsOrElse, hd, hne]
  · intro hfalsy i hi hne
    rcases hfalsy with h0 | h0 <;> simp [resolveName, jsOrElse, h0, hi, hne]
  · intro h1 h2
    simp [resolveName, jsOrElse, h1, h2]
  · rw [augment]
    simp

/-- Witness for `path_name_resolution`: a concrete path with a non-empty
`data-name` and id, and a concrete path with neither. -/
theorem path_name_resolution_witness :
    resolveName (getAttr [("data-name", "Bretagne"), ("id", "bzh")] "data-name")
        (getAttr [("data-name", "Bretagne"), ("id", "bzh")] "id") = "Bretagne" ∧
    resolveName (getAttr ([] : List (String × String)) "data-name")
        (getAttr ([] : List (String × String)) "id") = "Région" ∧
    augment ⟨0, 0⟩ 1 []
        (VNode.element "path" [("data-name", "Bretagne"), ("id", "bzh")] [])
      = VNode.element "path" [("data-name", "Bretagne"), ("id", "bzh")]
          [VNode.element "title" [] [VNode.text "Bretagne"]] := by
  have h := path_name_resolution ⟨0, 0⟩ 1 []
    [("data-name", "Bretagne"), ("id", "bzh")] []
  have h2 := path_name_resolution ⟨0, 0⟩ 1 [] ([] : List (String × String)) []
  refine ⟨h.1 "Bretagne" rfl (by decide), h2.2.2.1 rfl rfl, ?_⟩
  rw [h.2.2.2]
  simp [augmentList, resolveName, getAttr, jsOrElse]

/-! ### C9: safe mode is permanent -/

/-- Every user interaction the component handles. `markerClick` is the
circle click handler (lines 265–268) and `exportDone` the announcement at
the end of a successful export (line 227). -/
inductive Ev where
  | zoomIn
  | zoomOut
  | key (k : String)
  | mouseDown (client : Point)
  | mouseMove (client : Point)
  | mouseUp
  | mouseLeave
  | wheel (cursor : Point) (deltaY : ℚ)
  | selectRegion (name : String)
  | addMarker (now : ℕ) (vb : Option ViewBox)
  | markerClick (name : String)
  | exportDone

/-- Dispatch of one event to the matching handler. -/
def step (e : Ev) (s : MapState) : MapState :=
  match e with
  | Ev.zoomIn => handleZoomIn s
  | Ev.zoomOut => handleZoomOut s
  | Ev.key k => onKeyDownContainer k s
  | Ev.mouseDown c => onMouseDown c s
  | Ev.mouseMove c => onMouseMove c s
  | Ev.mouseUp => onMouseUp s
  | Ev.mouseLeave => onMouseLeave s
  | Ev.wheel c dy => onWheel c dy s
  | Ev.selectRegion n => handleSelect n s
  | Ev.addMarker now vb => addMarkerAtCenter now vb s
  | Ev.markerClick n => { s with ariaMessage := "Point " ++ n }
  | Ev.exportDone => { s with ariaMessage := "Carte ajoutée au design" }

/-- The state reached from mount after a sequence of events. -/
def run (evs : List Ev) : MapState :=
  evs.foldl (fun s e => step e s) initialState

/-- The two rendering strategies of the component (lines 384–400). -/
inductive RenderMode where
  | bitmapSafe (pan : Point) (zoom : ℚ)
  | interactiveVector
deriving DecidableEq, Repr

/-- `safeMode ? <img-backed div with translate/scale> : <SvgBoundary>` of the
render body (lines 385–399). -/
def render (s : MapState) : RenderMode :=
  if s.safeMode then RenderMode.bitmapSafe s.pan s.zoom
  else RenderMode.interactiveVector

/-- The two export strategies of `addCurrentViewToDesign`
(lines 154–156 / 180–211). -/
inductive ExportBranch where
  | canvasDrawImage
  | svgSerialization
deriving DecidableEq, Repr

/-- Which branch `addCurrentViewToDesign` takes (line 155). -/
def exportBranchOf (s : MapState) : ExportBranch :=
  if s.safeMode then ExportBranch.canvasDrawImage
  else ExportBranch.svgSerialization

/-- No handler ever writes `safeMode` (`useState(true)` destructures no
setter, line 36). -/
lemma step_safeMode (e : Ev) (s : MapState) : (step e s).safeMode = s.safeMode := by
  cases e with
  | zoomIn => rfl
  | zoomOut => rfl
  | key k =>
    show (onKeyDownContainer k s).safeMode = s.safeMode
    unfold onKeyDownContainer
    repeat' split
    all_goals rfl
  | mouseDown c => rfl
  | mouseMove c =>
    show (onMouseMove c s).safeMode = s.safeMode
    unfold onMouseMove
    split
    · rcases s.panStart with _ | st <;> rfl
    · rfl
  | mouseUp => rfl
  | mouseLeave => rfl
  | wheel c dy => rfl
  | selectRegion n => rfl
  | addMarker now vb =>
    show (addMarkerAtCenter now vb s).safeMode = s.safeMode
    unfold addMarkerAtCenter
    split
    · rfl
    · rcases vb with _ | v <;> rfl
  | markerClick n => rfl
  | exportDone => rfl

/-- C9: `safeMode` starts `true` and no operation changes it, so in every
reachable state the component renders the bitmap safe-mode path — the
augmented interactive vector tree behind the error boundary is never the
displayed output — and every export takes the canvas-drawImage branch, never
the SVG-serialization branch. -/
theorem safe_mode_permanent (evs : List Ev) :
    (run evs).safeMode = true ∧
    render (run evs) = RenderMode.bitmapSafe (run evs).pan (run evs).zoom ∧
    exportBranchOf (run evs) = ExportBranch.canvasDrawImage := by
  have hsafe : ∀ (l : List Ev) (s : MapState),
      (l.foldl (fun t e => step e t) s).safeMode = s.safeMode := by
    intro l
    induction l with
    | nil => intro s; rfl
    | cons e tl ih => intro s; rw [List.foldl_cons, ih, step_safeMode]
  have h : (run evs).safeMode = true := by
    show (evs.foldl (fun t e => step e t) initialState).safeMode = true
    rw [hsafe]
    rfl
  exact ⟨h, by simp [render, h], by simp [exportBranchOf, h]⟩
